import Mathlib

/-!
Verification of the worm-gear geometry generator (wormgear_geometry).

Shallow embedding of the pure computational core of the Python sources:
  - features.py : auto bore sizing, DIN 6885 keyway lookup, keyway dimension
    resolution, bore cut depth
  - worm.py     : multi-start thread angular offsets, trapezoidal tooth profile
  - wheel.py    : face-width auto-formula, tooth-space widths, the per-tooth
    cut loop with its failure handling
  - io.py       : design loading and the checks it performs

Machine floats are modelled as exact rationals (for the tabular and algebraic
parts) or reals (where pi, tan, sqrt and cube roots appear).  A Python
exception is modelled as an Option / Except error value.  Console printing is
modelled as an explicit trace list, separate from a function's return value.
-/

/-- Python built-in round, restricted to rationals: round half to even
(banker's rounding), as used by features.py for bore rounding. -/
def pyRound (x : ℚ) : ℤ :=
  if x - ⌊x⌋ < 1/2 then ⌊x⌋
  else if 1/2 < x - ⌊x⌋ then ⌊x⌋ + 1
  else if ⌊x⌋ % 2 = 0 then ⌊x⌋ else ⌊x⌋ + 1

/-- The rounding step of calculate_default_bore (features.py lines 95-100):
round to nearest 0.5mm below 12mm, to nearest 1mm otherwise. -/
def round_nice (bore : ℚ) : ℚ :=
  if bore < 12 then (pyRound (bore * 2) : ℚ) / 2 else (pyRound bore : ℚ)

/-- features.py calculate_default_bore: auto bore sizing from pitch and root
diameters.  Returns (none, false) when the gear is too small for any bore;
otherwise the clamped, rounded, re-clamped bore and a thin-rim warning flag. -/
def calculate_default_bore (pitch_diameter root_diameter : ℚ) : Option ℚ × Bool :=
  let target := pitch_diameter * (1/4)
  let min_bore : ℚ := 2
  let min_rim := max (root_diameter * (1/8)) 1
  let max_bore := root_diameter - 2 * min_rim
  if max_bore < min_bore then (none, false)
  else
    let bore0 := max min_bore (min target max_bore)
    let bore1 := round_nice bore0
    let bore2 := max min_bore (min bore1 max_bore)
    (some bore2, decide ((root_diameter - bore2) / 2 < 3/2))

/-- Linear search over a range-keyed table, matching the dictionary iteration
of features.py: the first entry whose half-open range contains the key wins. -/
def lookupRange {α : Type} : List ((ℚ × ℚ) × α) → ℚ → Option α
  | [], _ => none
  | ((lo, hi), v) :: rest, b => if lo ≤ b ∧ b < hi then some v else lookupRange rest b

/-- features.py DIN_6885_KEYWAYS: bore range to
(key_width, key_height, shaft_depth, hub_depth). -/
def DIN_6885_KEYWAYS : List ((ℚ × ℚ) × (ℚ × ℚ × ℚ × ℚ)) :=
  [ ((6, 8), (2, 2, 1.2, 1.0)),
    ((8, 10), (3, 3, 1.8, 1.4)),
    ((10, 12), (4, 4, 2.5, 1.8)),
    ((12, 17), (5, 5, 3.0, 2.3)),
    ((17, 22), (6, 6, 3.5, 2.8)),
    ((22, 30), (8, 7, 4.0, 3.3)),
    ((30, 38), (10, 8, 5.0, 3.3)),
    ((38, 44), (12, 8, 5.0, 3.3)),
    ((44, 50), (14, 9, 5.5, 3.8)),
    ((50, 58), (16, 10, 6.0, 4.3)),
    ((58, 65), (18, 11, 7.0, 4.4)),
    ((65, 75), (20, 12, 7.5, 4.9)),
    ((75, 85), (22, 14, 9.0, 5.4)),
    ((85, 95), (25, 14, 9.0, 5.4)) ]

/-- features.py get_din_6885_keyway: look up DIN 6885 keyway dimensions for a
bore diameter; none when the bore is outside the standard range. -/
def get_din_6885_keyway (bore_diameter : ℚ) : Option (ℚ × ℚ × ℚ × ℚ) :=
  lookupRange DIN_6885_KEYWAYS bore_diameter

/-- features.py KeywayFeature: optional explicit width, depth, length; is_shaft
selects shaft (worm) versus hub (wheel) keyway depth. -/
structure KeywayFeature where
  width : Option ℚ := none
  depth : Option ℚ := none
  length : Option ℚ := none
  is_shaft : Bool := false

/-- features.py KeywayFeature.get_dimensions: explicit width and depth bypass
the table; otherwise DIN 6885 supplies the missing values, with depth taken
from the shaft or the hub column.  none models the ValueError raised when the
bore is outside the standard range. -/
def KeywayFeature.get_dimensions (k : KeywayFeature) (bore_diameter : ℚ) :
    Option (ℚ × ℚ) :=
  match k.width, k.depth with
  | some w, some d => some (w, d)
  | _, _ =>
    match get_din_6885_keyway bore_diameter with
    | none => none
    | some (key_width, _, shaft_depth, hub_depth) =>
      some (k.width.getD key_width,
            k.depth.getD (if k.is_shaft then shaft_depth else hub_depth))

/-- features.py BoreFeature: diameter, through flag, optional blind depth. -/
structure BoreFeature where
  diameter : ℚ
  through : Bool := true
  depth : Option ℚ := none

/-- features.py create_bore, the height of the cutting cylinder: a through
bore uses part_length + 1.0, a blind bore uses the specified depth.  The
cylinder is centered on the part along the bore axis. -/
def bore_cut_depth (bore : BoreFeature) (part_length : ℚ) : ℚ :=
  if bore.through then part_length + 1 else bore.depth.getD 0

/-- How far the (centered) through-bore cutting cylinder extends beyond the
part on each side. -/
def bore_overhang_per_side (bore : BoreFeature) (part_length : ℚ) : ℚ :=
  (bore_cut_depth bore part_length - part_length) / 2

/-- worm.py _create_threads: the angular offset of each thread start,
(360 / num_starts) * start_index for start_index below num_starts. -/
def thread_angle_offsets (num_starts : ℕ) : List ℚ :=
  (List.range num_starts).map (fun i : ℕ => (360 / (num_starts : ℚ)) * (i : ℚ))

/-- worm.py _create_threads: one thread per start, each built from its angular
offset.  The thread construction itself is abstracted as a function of the
start angle. -/
def create_threads {α : Type} (num_starts : ℕ) (single_thread : ℚ → α) : List α :=
  (thread_angle_offsets num_starts).map single_thread

/-- wheel.py _create_helical_gear, the tooth-space cutting loop: each cut is
attempted on the accumulated gear; a failed cut (Python exception, modelled as
none) leaves the gear unchanged and appends the tooth index to the console
warning trace.  Returns the final gear together with that trace. -/
def cut_tooth_spaces {α : Type} (z : ℕ) (blank : α) (cut : ℕ → α → Option α) :
    α × List ℕ :=
  (List.range z).foldl
    (fun acc i =>
      match cut i acc.1 with
      | some g => (g, acc.2)
      | none => (acc.1, acc.2 ++ [i]))
    (blank, [])

/-- The gear state after the first n tooth-space cut attempts. -/
def gear_after {α : Type} (blank : α) (cut : ℕ → α → Option α) : ℕ → α
  | 0 => blank
  | n + 1 =>
    match cut n (gear_after blank cut n) with
    | some g => g
    | none => gear_after blank cut n

/-- wheel.py WheelGeometry.build: helical gear then throat cut; the return
value is the part alone (the console trace is not returned to the caller). -/
def wheel_build {α : Type} (z : ℕ) (blank : α) (cut : ℕ → α → Option α)
    (throat : α → α) : α :=
  throat (cut_tooth_spaces z blank cut).1

/-- io.py WormParams. -/
structure WormParams where
  module_mm : ℚ
  num_starts : ℤ
  pitch_diameter_mm : ℚ
  tip_diameter_mm : ℚ
  root_diameter_mm : ℚ
  lead_mm : ℚ
  lead_angle_deg : ℚ
  addendum_mm : ℚ
  dedendum_mm : ℚ
  thread_thickness_mm : ℚ
  hand : String
  profile_shift : ℚ := 0

/-- io.py WheelParams. -/
structure WheelParams where
  module_mm : ℚ
  num_teeth : ℤ
  pitch_diameter_mm : ℚ
  tip_diameter_mm : ℚ
  root_diameter_mm : ℚ
  throat_diameter_mm : ℚ
  helix_angle_deg : ℚ
  addendum_mm : ℚ
  dedendum_mm : ℚ
  profile_shift : ℚ := 0

/-- io.py AssemblyParams. -/
structure AssemblyParams where
  centre_distance_mm : ℚ
  pressure_angle_deg : ℚ
  backlash_mm : ℚ
  hand : String
  ratio : ℤ
  efficiency_percent : Option ℚ := none
  self_locking : Option Bool := none

/-- io.py WormGearDesign. -/
structure WormGearDesign where
  worm : WormParams
  wheel : WheelParams
  assembly : AssemblyParams

/-- A design file after JSON parsing and unwrapping of an optional design key:
each of the three sections is present or absent.  (Restricted to inputs whose
present sections carry all required fields, which is all the loader ever
inspects beyond presence.) -/
structure RawDesignFile where
  worm : Option WormParams
  wheel : Option WheelParams
  assembly : Option AssemblyParams

/-- io.py load_design_json, after file reading and JSON parsing: the only
check performed is that the worm, wheel and assembly sections are present;
the field values are copied into the design unexamined. -/
def load_design_json (d : RawDesignFile) : Except String WormGearDesign :=
  match d.worm, d.wheel, d.assembly with
  | some w, some wh, some a => Except.ok ⟨w, wh, a⟩
  | _, _, _ =>
    Except.error "Invalid design JSON - must contain worm, wheel, and assembly sections"

/-- wheel.py WheelGeometry init, auto face width: the uncapped formula
0.73 * d1^(1/3) * sqrt(ratio) clamped into [0.3 * d1, 0.67 * d1]
(Python max(0.3*d1, min(0.67*d1, fw))). -/
noncomputable def face_width_auto (d1 ratio : ℝ) : ℝ :=
  max (0.3 * d1) (min (0.67 * d1) (0.73 * d1 ^ ((1 : ℝ)/3) * Real.sqrt ratio))

/-- wheel.py WheelGeometry init: an explicit face width is used unchanged,
otherwise the auto formula applies. -/
noncomputable def face_width (d1 ratio : ℝ) : Option ℝ → ℝ
  | some b => b
  | none => face_width_auto d1 ratio

/-- worm.py _create_tooth_profile: half thread width at the tip,
(thread_thickness - backlash)/2 - addendum * tan(pressure_angle). -/
noncomputable def tip_half_width (thread_thickness backlash addendum pa : ℝ) : ℝ :=
  (thread_thickness - backlash) / 2 - addendum * Real.tan pa

/-- worm.py _create_tooth_profile: half thread width at the root,
(thread_thickness - backlash)/2 + dedendum * tan(pressure_angle). -/
noncomputable def root_half_width (thread_thickness backlash dedendum pa : ℝ) : ℝ :=
  (thread_thickness - backlash) / 2 + dedendum * Real.tan pa

/-- worm.py _create_tooth_profile: the four (radial, axial) polygon vertices of
the trapezoidal thread profile.  The function is total: it performs no
degeneracy check on the half widths. -/
noncomputable def create_tooth_profile
    (thread_thickness backlash addendum dedendum pa : ℝ) : List (ℝ × ℝ) :=
  [ (addendum, -(tip_half_width thread_thickness backlash addendum pa)),
    (addendum, tip_half_width thread_thickness backlash addendum pa),
    (-dedendum, root_half_width thread_thickness backlash dedendum pa),
    (-dedendum, -(root_half_width thread_thickness backlash dedendum pa)) ]

/-- wheel.py _create_helical_gear: tooth-space width at the pitch circle,
pi * module / 2 + backlash. -/
noncomputable def space_width_pitch (m backlash : ℝ) : ℝ :=
  Real.pi * m / 2 + backlash

/-- wheel.py _create_helical_gear: tooth-space width at the tip circle. -/
noncomputable def space_width_tip (m backlash tip_radius pitch_radius pa : ℝ) : ℝ :=
  space_width_pitch m backlash + 2 * (tip_radius - pitch_radius) * Real.tan pa

/-- wheel.py _create_helical_gear: tooth-space width at the root circle,
floored at the constant 0.5mm. -/
noncomputable def space_width_root (m backlash pitch_radius root_radius pa : ℝ) : ℝ :=
  max 0.5 (space_width_pitch m backlash - 2 * (pitch_radius - root_radius) * Real.tan pa)

/-! ## Helper lemmas -/

/-- Python round never strays further than half a unit from its argument. -/
lemma pyRound_nearest (x : ℚ) : |(pyRound x : ℚ) - x| ≤ 1/2 := by
  have h0 : (⌊x⌋ : ℚ) ≤ x := Int.floor_le x
  have h1 : x < ⌊x⌋ + 1 := Int.lt_floor_add_one x
  unfold pyRound
  split_ifs with ha hb hc <;> rw [abs_le] <;> constructor <;> push_cast <;> linarith

/-- A range-keyed table is contiguous from lo: each entry starts where the
previous one ended and every range is nonempty. -/
def contiguous_from {α : Type} : ℚ → List ((ℚ × ℚ) × α) → Prop
  | _, [] => True
  | lo, ((lo', hi), _) :: rest => lo' = lo ∧ lo < hi ∧ contiguous_from hi rest

/-- The upper end of a range-keyed table starting at lo. -/
def table_end {α : Type} : ℚ → List ((ℚ × ℚ) × α) → ℚ
  | lo, [] => lo
  | _, ((_, hi), _) :: rest => table_end hi rest

lemma le_table_end {α : Type} :
    ∀ (tbl : List ((ℚ × ℚ) × α)) (lo : ℚ), contiguous_from lo tbl → lo ≤ table_end lo tbl
  | [], lo, _ => le_refl lo
  | ((lo', hi), v) :: rest, lo, h => by
    obtain ⟨-, hlt, hrest⟩ := h
    exact le_trans (le_of_lt hlt) (le_table_end rest hi hrest)

/-- On a contiguous table, the range lookup succeeds exactly on the half-open
interval from the start of the first range to the end of the last. -/
lemma lookupRange_isSome_iff {α : Type} :
    ∀ (tbl : List ((ℚ × ℚ) × α)) (lo : ℚ), contiguous_from lo tbl →
      ∀ b : ℚ, (lookupRange tbl b).isSome ↔ lo ≤ b ∧ b < table_end lo tbl
  | [], lo, _, b => by
    simp only [lookupRange, Option.isSome_none, Bool.false_eq_true, false_iff, table_end]
    intro h
    exact absurd (lt_of_le_of_lt h.1 h.2) (lt_irrefl lo)
  | ((lo', hi), v) :: rest, lo, h, b => by
    obtain ⟨rfl, hlt, hrest⟩ := h
    have hend : hi ≤ table_end hi rest := le_table_end rest hi hrest
    have ih := lookupRange_isSome_iff rest hi hrest b
    simp only [lookupRange, table_end]
    by_cases hcond : lo' ≤ b ∧ b < hi
    · rw [if_pos hcond]
      simp only [Option.isSome_some, true_iff]
      exact ⟨hcond.1, lt_of_lt_of_le hcond.2 hend⟩
    · rw [if_neg hcond]
      rw [ih]
      constructor
      · rintro ⟨hge, hlt2⟩
        exact ⟨le_trans (le_of_lt hlt) hge, hlt2⟩
      · rintro ⟨hge, hlt2⟩
        refine ⟨?_, hlt2⟩
        by_contra hnot
        push_neg at hnot
        exact hcond ⟨hge, hnot⟩

/-- The DIN 6885 table is contiguous from 6mm to 95mm. -/
lemma din_table_contiguous : contiguous_from 6 DIN_6885_KEYWAYS := by
  norm_num [DIN_6885_KEYWAYS, contiguous_from]

/-- The DIN 6885 table ends at 95mm. -/
lemma din_table_end : table_end 6 DIN_6885_KEYWAYS = 95 := by
  norm_num [DIN_6885_KEYWAYS, table_end]

/-- The DIN 6885 lookup succeeds exactly on the half-open range [6, 95). -/
lemma get_din_6885_keyway_isSome_iff (b : ℚ) :
    (get_din_6885_keyway b).isSome ↔ 6 ≤ b ∧ b < 95 := by
  have h := lookupRange_isSome_iff DIN_6885_KEYWAYS 6 din_table_contiguous b
  rw [din_table_end] at h
  exact h

/-- Out of the DIN 6885 table range, the lookup returns none. -/
lemma get_din_6885_keyway_eq_none {b : ℚ} (hb : b < 6 ∨ 95 ≤ b) :
    get_din_6885_keyway b = none := by
  rw [← Option.not_isSome_iff_eq_none, get_din_6885_keyway_isSome_iff]
  rintro ⟨h1, h2⟩
  rcases hb with hb | hb <;> linarith

/-- A successful DIN lookup places the bore inside the standard range. -/
lemma din_in_range_of_some {b : ℚ} {q : ℚ × ℚ × ℚ × ℚ}
    (h : get_din_6885_keyway b = some q) : 6 ≤ b ∧ b < 95 := by
  rw [← get_din_6885_keyway_isSome_iff, h]
  rfl

/-! ## Claim theorems -/

/-- C8: the DIN 6885 lookup is indexed by half-open ranges spanning [6, 95);
bore 10mm yields (4, 4, 2.5, 1.8); with no explicit dimensions the depth used
is the shaft depth for a shaft keyway and the hub depth otherwise; and keyway
dimension resolution fails exactly when the bore is outside [6, 95) and width
and depth are not both given explicitly. -/
theorem din_keyway_spec :
    (∀ b : ℚ, (get_din_6885_keyway b).isSome ↔ 6 ≤ b ∧ b < 95) ∧
    get_din_6885_keyway 10 = some (4, 4, 2.5, 1.8) ∧
    (∀ (b kw kh sd hd : ℚ) (l : Option ℚ) (s : Bool),
      get_din_6885_keyway b = some (kw, kh, sd, hd) →
      KeywayFeature.get_dimensions ⟨none, none, l, s⟩ b =
        some (kw, if s then sd else hd)) ∧
    (∀ (k : KeywayFeature) (b : ℚ),
      KeywayFeature.get_dimensions k b = none ↔
        ((b < 6 ∨ 95 ≤ b) ∧ ¬(k.width.isSome ∧ k.depth.isSome))) := by
  refine ⟨get_din_6885_keyway_isSome_iff, ?_, ?_, ?_⟩
  · norm_num [get_din_6885_keyway, DIN_6885_KEYWAYS, lookupRange]
  · intro b kw kh sd hd l s hdin
    simp [KeywayFeature.get_dimensions, hdin]
  · intro k b
    rcases k with ⟨w, d, l, s⟩
    cases w with
    | some wv =>
      cases d with
      | some dv => simp [KeywayFeature.get_dimensions]
      | none =>
        rcases hdin : get_din_6885_keyway b with _ | q
        · have hrange : ¬(6 ≤ b ∧ b < 95) := by
            rw [← get_din_6885_keyway_isSome_iff, hdin]
            simp
          push_neg at hrange
          simp [KeywayFeature.get_dimensions, hdin]
          by_cases hb : b < 6
          · exact Or.inl hb
          · push_neg at hb
            exact Or.inr (hrange hb)
        · have hrange := din_in_range_of_some hdin
          obtain ⟨q1, q2, q3, q4⟩ := q
          simp [KeywayFeature.get_dimensions, hdin]
          exact hrange
    | none =>
      rcases hdin : get_din_6885_keyway b with _ | q
      · have hrange : ¬(6 ≤ b ∧ b < 95) := by
          rw [← get_din_6885_keyway_isSome_iff, hdin]
          simp
        push_neg at hrange
        cases d <;> simp [KeywayFeature.get_dimensions, hdin]
        all_goals
          by_cases hb : b < 6
          · exact Or.inl hb
          · push_neg at hb
            exact Or.inr (hrange hb)
      · have hrange := din_in_range_of_some hdin
        obtain ⟨q1, q2, q3, q4⟩ := q
        cases d <;> simp [KeywayFeature.get_dimensions, hdin]
        all_goals exact hrange

/-- C8 witness: for a shaft keyway with no explicit dimensions on a 10mm bore
the resolved dimensions are width 4 and shaft depth 2.5. -/
theorem din_keyway_spec_witness :
    KeywayFeature.get_dimensions ⟨none, none, none, true⟩ 10 = some (4, 2.5) := by
  have h := din_keyway_spec
  have h10 := h.2.1
  have hres := h.2.2.1 10 4 4 2.5 1.8 none true h10
  simpa using hres

/-- C10: explicit keyway dimensions bypass the DIN table only when both width
and depth are given; with both given, get_dimensions returns exactly that pair
for every bore, including bores outside [6, 95); with exactly one given and
the bore outside the standard range, resolution fails and the supplied value
is not used. -/
theorem keyway_explicit_dims (w d : ℚ) (l : Option ℚ) (s : Bool) (b : ℚ) :
    KeywayFeature.get_dimensions ⟨some w, some d, l, s⟩ b = some (w, d) ∧
    ((b < 6 ∨ 95 ≤ b) →
      KeywayFeature.get_dimensions ⟨some w, none, l, s⟩ b = none ∧
      KeywayFeature.get_dimensions ⟨none, some d, l, s⟩ b = none) := by
  refine ⟨rfl, fun hb => ?_⟩
  have h := get_din_6885_keyway_eq_none hb
  constructor <;> simp [KeywayFeature.get_dimensions, h]

/-- C10 witness: on a 100mm bore (outside DIN 6885), both dimensions explicit
succeeds with exactly those values, while width-only fails. -/
theorem keyway_explicit_dims_witness :
    KeywayFeature.get_dimensions ⟨some 5, some 3, none, false⟩ 100 = some (5, 3) ∧
    KeywayFeature.get_dimensions ⟨some 5, none, none, false⟩ 100 = none :=
  ⟨(keyway_explicit_dims 5 3 none false 100).1,
   ((keyway_explicit_dims 5 3 none false 100).2 (by norm_num)).1⟩

/-- Element access into the offsets list. -/
lemma thread_angle_offsets_getD {n i : ℕ} (h : i < n) :
    (thread_angle_offsets n).getD i 0 = 360 / (n : ℚ) * i := by
  rw [thread_angle_offsets, List.getD_eq_getElem?_getD, List.getElem?_map,
    List.getElem?_range h]
  rfl

/-- C9: a worm with n starts gets exactly n threads; the thread with start
index i is phase-offset by (360/n)*i degrees, and consecutive threads are
separated by exactly 360/n degrees. -/
theorem worm_thread_offsets_spec (n : ℕ) (hn : 1 ≤ n) :
    (thread_angle_offsets n).length = n ∧
    (∀ (α : Type) (single_thread : ℚ → α), (create_threads n single_thread).length = n) ∧
    (∀ i : ℕ, i < n → (thread_angle_offsets n).getD i 0 = 360 / (n : ℚ) * i) ∧
    (∀ i : ℕ, i + 1 < n →
      (thread_angle_offsets n).getD (i + 1) 0 - (thread_angle_offsets n).getD i 0 =
        360 / (n : ℚ)) := by
  refine ⟨by simp [thread_angle_offsets], fun α st => by simp [create_threads, thread_angle_offsets],
    fun i h => thread_angle_offsets_getD h, fun i h => ?_⟩
  rw [thread_angle_offsets_getD h, thread_angle_offsets_getD (Nat.lt_of_succ_lt h)]
  push_cast
  ring

/-- C9 witness: a 3-start worm has three threads at 0, 120 and 240 degrees,
with consecutive separation 120 degrees. -/
theorem worm_thread_offsets_spec_witness :
    (thread_angle_offsets 3).length = 3 ∧
    (thread_angle_offsets 3).getD 1 0 = 120 ∧
    (thread_angle_offsets 3).getD 2 0 - (thread_angle_offsets 3).getD 1 0 = 120 := by
  have h := worm_thread_offsets_spec 3 (by norm_num)
  refine ⟨h.1, ?_, ?_⟩
  · rw [h.2.2.1 1 (by norm_num)]
    norm_num
  · rw [h.2.2.2 1 (by norm_num)]
    norm_num

/-- C6 counterexample: for a part of length 10mm, the through-bore cutting
cylinder is 11mm long, not the claimed 12mm; being centered, it extends only
0.5mm beyond the part on each side. -/
theorem bore_overhang_refuted :
    bore_cut_depth ⟨5, true, none⟩ 10 = 11 ∧
    bore_cut_depth ⟨5, true, none⟩ 10 ≠ 10 + 2 ∧
    bore_overhang_per_side ⟨5, true, none⟩ 10 = 1/2 := by
  norm_num [bore_cut_depth, bore_overhang_per_side]

/-- C6 amended: a through bore cut is part_length + 1mm long, extending 0.5mm
beyond the part on each side; a non-through bore is a blind cut of exactly the
specified depth. -/
theorem bore_cut_spec (dia L d : ℚ) (dep : Option ℚ) :
    bore_cut_depth ⟨dia, true, dep⟩ L = L + 1 ∧
    bore_overhang_per_side ⟨dia, true, dep⟩ L = 1/2 ∧
    bore_cut_depth ⟨dia, false, some d⟩ L = d := by
  refine ⟨rfl, ?_, rfl⟩
  rw [bore_overhang_per_side]
  show (L + 1 - L) / 2 = 1/2
  ring

/-- A deliberately inconsistent worm: negative module, hand LEFT. -/
def demo_bad_worm : WormParams :=
  ⟨-2, 1, 20, 24, 15.2, 6.28, 7, 2, 2.4, 3.14, "LEFT", 0⟩

/-- A wheel whose tooth count does not match ratio times starts. -/
def demo_bad_wheel : WheelParams :=
  ⟨-2, 40, 60, 64, 55.2, 59, 7, 2, 2.4, 0⟩

/-- An assembly with hand RIGHT and ratio 30. -/
def demo_bad_assembly : AssemblyParams :=
  ⟨40, 20, 0.05, "RIGHT", 30, none, none⟩

/-- C4 counterexample: a design with a negative module, a hand mismatch
between worm and assembly, and wheel teeth different from ratio times starts
still loads successfully; no validation error is raised and the loaded design
violates every one of the claimed invariants. -/
theorem load_design_no_validation_refuted :
    load_design_json ⟨some demo_bad_worm, some demo_bad_wheel, some demo_bad_assembly⟩ =
      Except.ok ⟨demo_bad_worm, demo_bad_wheel, demo_bad_assembly⟩ ∧
    demo_bad_worm.module_mm < 0 ∧
    demo_bad_worm.hand ≠ demo_bad_assembly.hand ∧
    demo_bad_wheel.num_teeth ≠ demo_bad_assembly.ratio * demo_bad_worm.num_starts := by
  refine ⟨rfl, by norm_num [demo_bad_worm], ?_, by decide⟩
  simp [demo_bad_worm, demo_bad_assembly]

/-- C4 amended: loading a design checks only that the worm, wheel and assembly
sections are present; it performs no dimensional-consistency validation, so a
design loads successfully if and only if the three sections exist, whatever
their values. -/
theorem load_design_presence_only (d : RawDesignFile) :
    (∃ g : WormGearDesign, load_design_json d = Except.ok g) ↔
      (d.worm.isSome ∧ d.wheel.isSome ∧ d.assembly.isSome) := by
  rcases d with ⟨w, wh, a⟩
  cases w <;> cases wh <;> cases a <;> simp [load_design_json]

/-- The cut loop computes the gear obtained by applying every successful cut
in order, and its console trace lists exactly the teeth whose cut failed. -/
lemma cut_tooth_spaces_eq {α : Type} (blank : α) (cut : ℕ → α → Option α) :
    ∀ z : ℕ, cut_tooth_spaces z blank cut =
      (gear_after blank cut z,
       (List.range z).filter (fun i => (cut i (gear_after blank cut i)).isNone))
  | 0 => rfl
  | z + 1 => by
    have ih := cut_tooth_spaces_eq blank cut z
    unfold cut_tooth_spaces at ih ⊢
    rw [List.range_succ, List.foldl_append, ih, List.foldl_cons, List.foldl_nil,
      List.filter_append]
    rcases h : cut z (gear_after blank cut z) with _ | g <;>
      simp [h, gear_after]

/-- A demonstration cut oracle: the cut of tooth 0 fails, every other cut
succeeds and increments the gear counter. -/
def demo_cut : ℕ → ℕ → Option ℕ := fun i g => if i = 0 then none else some (g + 1)

/-- C3 counterexample: in a 3-tooth build where the cut of tooth 0 fails, the
failure is recorded only in the console trace; the value build returns to the
caller is the bare solid (here the counter 2), with no list of skipped or
failed features attached. -/
theorem wheel_build_return_refuted :
    (cut_tooth_spaces 3 0 demo_cut).2 = [0] ∧
    wheel_build 3 0 demo_cut id = 2 := by decide

/-- C3 amended: a failed tooth-space cut is recorded in the console trace and
skipped, the build continues with the remaining teeth on the unchanged gear,
and build returns only the best achievable solid; the list of failed teeth is
printed, not returned. -/
theorem wheel_cut_failure_handling {α : Type} (z : ℕ) (blank : α)
    (cut : ℕ → α → Option α) (throat : α → α) :
    cut_tooth_spaces z blank cut =
      (gear_after blank cut z,
       (List.range z).filter (fun i => (cut i (gear_after blank cut i)).isNone)) ∧
    wheel_build z blank cut throat = throat (gear_after blank cut z) ∧
    (∀ i : ℕ, i < z → cut i (gear_after blank cut i) = none →
      i ∈ (cut_tooth_spaces z blank cut).2 ∧
      gear_after blank cut (i + 1) = gear_after blank cut i) := by
  have key := cut_tooth_spaces_eq blank cut z
  refine ⟨key, by rw [wheel_build, key], fun i hiz hfail => ⟨?_, ?_⟩⟩
  · rw [key]
    simp [List.mem_filter, List.mem_range, hiz, hfail]
  · simp [gear_after, hfail]

/-- C3 witness: in the demonstration build the failed tooth 0 is in the
console trace and its failure leaves the gear unchanged. -/
theorem wheel_cut_failure_handling_witness :
    0 ∈ (cut_tooth_spaces 3 (0 : ℕ) demo_cut).2 ∧
    gear_after (0 : ℕ) demo_cut 1 = gear_after (0 : ℕ) demo_cut 0 :=
  (wheel_cut_failure_handling 3 0 demo_cut id).2.2 0 (by norm_num) (by rfl)

/-- C5 counterexample: with thread thickness 2, backlash 0, addendum 2 and
pressure angle 45 degrees the tip half width is -1 (degenerate), yet the
profile generator raises nothing and returns the self-intersecting trapezoid. -/
theorem tooth_profile_no_check_refuted :
    tip_half_width 2 0 2 (Real.pi / 4) = -1 ∧
    create_tooth_profile 2 0 2 1 (Real.pi / 4) =
      [(2, 1), (2, -1), (-1, 2), (-1, -2)] := by
  have ht : Real.tan (Real.pi / 4) = 1 := Real.tan_pi_div_four
  constructor
  · rw [tip_half_width, ht]
    norm_num
  · rw [create_tooth_profile, tip_half_width, root_half_width, ht]
    norm_num

/-- C5 amended: the profile generator performs no degeneracy check; for all
parameters, including those with a nonpositive half width, it returns the
four-vertex trapezoid built from the stated half-width formulas. -/
theorem tooth_profile_total_spec (tt b a d pa : ℝ) :
    create_tooth_profile tt b a d pa =
      [ (a, -((tt - b) / 2 - a * Real.tan pa)),
        (a, (tt - b) / 2 - a * Real.tan pa),
        (-d, (tt - b) / 2 + d * Real.tan pa),
        (-d, -((tt - b) / 2 + d * Real.tan pa)) ] := rfl

/-- C7 counterexample: for module 6, backlash 0, pitch radius 20, root radius
15 and pressure angle 45 degrees, the root space width is the constant floor
0.5mm, which is below the claimed floor bound of 0.1 times the module. -/
theorem wheel_root_floor_refuted :
    space_width_root 6 0 20 15 (Real.pi / 4) = 1/2 ∧
    space_width_root 6 0 20 15 (Real.pi / 4) < (1/10) * 6 := by
  have ht : Real.tan (Real.pi / 4) = 1 := Real.tan_pi_div_four
  have hpi : Real.pi < 3.15 := Real.pi_lt_d2
  have harg : space_width_pitch 6 0 - 2 * (20 - 15) * Real.tan (Real.pi / 4) ≤ 0.5 := by
    rw [ht, space_width_pitch]
    nlinarith
  have h1 : space_width_root 6 0 20 15 (Real.pi / 4) = 0.5 := by
    rw [space_width_root, max_eq_left harg]
  rw [h1]
  norm_num

/-- C7 amended: the tooth-space widths follow the stated formulas with the
root width floored at the constant 0.5mm (not at 0.1 times the module). -/
theorem wheel_space_width_spec (m b tip_radius pitch_radius root_radius pa : ℝ) :
    space_width_pitch m b = Real.pi * m / 2 + b ∧
    space_width_tip m b tip_radius pitch_radius pa =
      space_width_pitch m b + 2 * (tip_radius - pitch_radius) * Real.tan pa ∧
    space_width_root m b pitch_radius root_radius pa =
      max (1/2) (space_width_pitch m b - 2 * (pitch_radius - root_radius) * Real.tan pa) := by
  refine ⟨rfl, rfl, ?_⟩
  rw [space_width_root]
  norm_num

/-- Taking the cube and then the one-third real power is the identity on
nonnegative reals. -/
lemma rpow_third_cube (a : ℝ) (ha : 0 ≤ a) : ((a ^ (3:ℕ) : ℝ)) ^ ((1:ℝ)/3) = a := by
  rw [← Real.rpow_natCast a 3, ← Real.rpow_mul ha]
  norm_num

lemma cbrt20_gt : (2.7 : ℝ) < (20 : ℝ) ^ ((1:ℝ)/3) := by
  have h3 : ((2.7 : ℝ) ^ (3:ℕ)) ^ ((1:ℝ)/3) = 2.7 := rpow_third_cube 2.7 (by norm_num)
  calc (2.7 : ℝ) = ((2.7 : ℝ) ^ (3:ℕ)) ^ ((1:ℝ)/3) := h3.symm
    _ < (20 : ℝ) ^ ((1:ℝ)/3) := Real.rpow_lt_rpow (by positivity) (by norm_num) (by norm_num)

lemma cbrt20_lt : (20 : ℝ) ^ ((1:ℝ)/3) < 2.8 := by
  have h3 : ((2.8 : ℝ) ^ (3:ℕ)) ^ ((1:ℝ)/3) = 2.8 := rpow_third_cube 2.8 (by norm_num)
  calc (20 : ℝ) ^ ((1:ℝ)/3) < ((2.8 : ℝ) ^ (3:ℕ)) ^ ((1:ℝ)/3) :=
        Real.rpow_lt_rpow (by norm_num) (by norm_num) (by norm_num)
    _ = 2.8 := h3

lemma sqrt30_gt : (5.4 : ℝ) < Real.sqrt 30 := by
  rw [Real.lt_sqrt (by norm_num)]
  norm_num

lemma sqrt30_lt : Real.sqrt 30 < 5.5 := by
  rw [Real.sqrt_lt' (by norm_num)]
  norm_num

/-- For the worked example d1 = 20, ratio = 30, the uncapped formula value
lies strictly inside the clamp range (6, 13.4), so neither clamp binds. -/
lemma face_width_auto_20_30 :
    face_width_auto 20 30 = 0.73 * (20 : ℝ) ^ ((1:ℝ)/3) * Real.sqrt 30 ∧
    6 < face_width_auto 20 30 ∧ face_width_auto 20 30 < 13.4 := by
  have ha1 := cbrt20_gt
  have ha2 := cbrt20_lt
  have hs1 := sqrt30_gt
  have hs2 := sqrt30_lt
  have ha0 : (0:ℝ) < (20 : ℝ) ^ ((1:ℝ)/3) := lt_trans (by norm_num) ha1
  have hs0 : (0:ℝ) < Real.sqrt 30 := lt_trans (by norm_num) hs1
  have hFlt : 0.73 * (20 : ℝ) ^ ((1:ℝ)/3) * Real.sqrt 30 < 13.4 := by nlinarith
  have hFgt : (6:ℝ) < 0.73 * (20 : ℝ) ^ ((1:ℝ)/3) * Real.sqrt 30 := by nlinarith
  have heq : face_width_auto 20 30 = 0.73 * (20 : ℝ) ^ ((1:ℝ)/3) * Real.sqrt 30 := by
    rw [face_width_auto, min_eq_right, max_eq_right]
    · linarith [hFgt]
    · linarith [hFlt]
  exact ⟨heq, by rw [heq]; exact hFgt, by rw [heq]; exact hFlt⟩

/-- C2 counterexample: for d1 = 20 and ratio = 30 the auto face width is not
13.4mm; the formula value is about 10.85mm and the upper clamp does not bind. -/
theorem face_width_example_refuted : face_width 20 30 none ≠ 13.4 := by
  have h : face_width 20 30 none = face_width_auto 20 30 := rfl
  rw [h]
  exact ne_of_lt face_width_auto_20_30.2.2

/-- C2 amended: an explicit face width bypasses the formula; the auto face
width is the formula value clamped into [0.3 d1, 0.67 d1]; and in the worked
example d1 = 20, ratio = 30 the formula value is about 10.85mm, strictly
inside (6, 13.4), so the face width equals the unclamped formula value. -/
theorem face_width_spec :
    (∀ d1 ratio b : ℝ, face_width d1 ratio (some b) = b) ∧
    (∀ d1 ratio : ℝ, face_width d1 ratio none =
      max (0.3 * d1) (min (0.67 * d1) (0.73 * d1 ^ ((1:ℝ)/3) * Real.sqrt ratio))) ∧
    face_width 20 30 none = 0.73 * (20 : ℝ) ^ ((1:ℝ)/3) * Real.sqrt 30 ∧
    6 < face_width 20 30 none ∧
    face_width 20 30 none < 13.4 := by
  have h := face_width_auto_20_30
  exact ⟨fun _ _ _ => rfl, fun _ _ => rfl, h.1, h.2.1, h.2.2⟩

/-- Below 12mm the rounding step lands on a multiple of 0.5mm, at most 0.25mm
from its argument (nearest, ties broken to even as Python round does). -/
lemma round_nice_small {c : ℚ} (h : c < 12) :
    (∃ k : ℤ, round_nice c = (k : ℚ) / 2) ∧ |round_nice c - c| ≤ 1/4 := by
  rw [round_nice, if_pos h]
  refine ⟨⟨pyRound (c * 2), rfl⟩, ?_⟩
  have hp := pyRound_nearest (c * 2)
  have heq : (pyRound (c * 2) : ℚ) / 2 - c = ((pyRound (c * 2) : ℚ) - c * 2) / 2 := by ring
  rw [heq, abs_div]
  have h2 : |(2 : ℚ)| = 2 := by norm_num
  rw [h2]
  linarith

/-- From 12mm up the rounding step lands on a whole millimetre, at most 0.5mm
from its argument. -/
lemma round_nice_large {c : ℚ} (h : 12 ≤ c) :
    (∃ k : ℤ, round_nice c = (k : ℚ)) ∧ |round_nice c - c| ≤ 1/2 := by
  rw [round_nice, if_neg (not_lt.2 h)]
  exact ⟨⟨pyRound c, rfl⟩, pyRound_nearest c⟩

/-- C1: auto bore sizing returns (none, false) exactly when
max_bore = root_d - 2 * max(0.125 root_d, 1) is below min_bore = 2; otherwise
it returns the target 0.25 pitch_d clamped into [2, max_bore], rounded to the
nearest 0.5mm below 12mm and to the nearest 1mm otherwise, re-clamped, with
the warning flag true exactly when the resulting rim is below 1.5mm; for
pitch 20, root 16 the result is bore 5 with no warning, and any gear with
root diameter 3.5 has no feasible bore. -/
theorem auto_bore_spec (p r : ℚ) :
    (calculate_default_bore p r = (none, false) ↔ r - 2 * max (r * (1/8)) 1 < 2) ∧
    (2 ≤ r - 2 * max (r * (1/8)) 1 →
      calculate_default_bore p r =
        (some (max 2 (min (round_nice (max 2 (min (p * (1/4)) (r - 2 * max (r * (1/8)) 1))))
                 (r - 2 * max (r * (1/8)) 1))),
         decide ((r - max 2 (min (round_nice (max 2 (min (p * (1/4)) (r - 2 * max (r * (1/8)) 1))))
                 (r - 2 * max (r * (1/8)) 1))) / 2 < 3/2))) ∧
    (∀ b : ℚ, ∀ w : Bool, calculate_default_bore p r = (some b, w) →
      (w = true ↔ (r - b) / 2 < 3/2)) ∧
    (∀ c : ℚ, c < 12 → (∃ k : ℤ, round_nice c = (k : ℚ) / 2) ∧ |round_nice c - c| ≤ 1/4) ∧
    (∀ c : ℚ, 12 ≤ c → (∃ k : ℤ, round_nice c = (k : ℚ)) ∧ |round_nice c - c| ≤ 1/2) ∧
    calculate_default_bore 20 16 = (some 5, false) ∧
    calculate_default_bore p (7/2) = (none, false) := by
  refine ⟨?_, ?_, ?_, fun c h => round_nice_small h, fun c h => round_nice_large h, ?_, ?_⟩
  · simp only [calculate_default_bore]
    split_ifs with h
    · simpa using h
    · exact iff_of_false (by simp) h
  · intro h2
    simp only [calculate_default_bore]
    rw [if_neg (not_lt.2 h2)]
  · intro b w heq
    simp only [calculate_default_bore] at heq
    split_ifs at heq with h
    · simp at heq
    · injection heq with h1 h2
      injection h1 with h1
      subst h1
      subst h2
      simp
  · norm_num [calculate_default_bore, round_nice, pyRound]
  · have hm : max ((7:ℚ)/2 * (1/8)) 1 = 1 := max_eq_right (by norm_num)
    simp only [calculate_default_bore, hm]
    norm_num

/-- C1 witness: the worked example pitch 20, root 16 exercises every branch:
bore 5 with no warning, warning iff rim below 1.5mm, rounding within bounds,
and the structural equation at max_bore = 12. -/
theorem auto_bore_spec_witness :
    calculate_default_bore 20 16 = (some 5, false) ∧
    (false = true ↔ ((16:ℚ) - 5) / 2 < 3/2) ∧
    |round_nice 5 - 5| ≤ 1/4 ∧
    |round_nice 14 - 14| ≤ 1/2 ∧
    calculate_default_bore 20 16 =
      (some (max 2 (min (round_nice (max 2 (min ((20:ℚ) * (1/4)) (16 - 2 * max ((16:ℚ) * (1/8)) 1))))
         (16 - 2 * max ((16:ℚ) * (1/8)) 1))),
       decide (((16:ℚ) - max 2 (min (round_nice (max 2 (min ((20:ℚ) * (1/4)) (16 - 2 * max ((16:ℚ) * (1/8)) 1))))
         (16 - 2 * max ((16:ℚ) * (1/8)) 1))) / 2 < 3/2)) := by
  have h := auto_bore_spec 20 16
  exact ⟨h.2.2.2.2.2.1, h.2.2.1 5 false h.2.2.2.2.2.1, (h.2.2.2.1 5 (by norm_num)).2,
    (h.2.2.2.2.1 14 (by norm_num)).2, h.2.1 (by norm_num)⟩
